import Mathlib

/-!
# Budget Tracker CLI — verification development

A shallow embedding of `budget_tracker.py` (a single-file expense tracking
CLI) and proofs about it.  The program stores expense records in a CSV file
with header `date,description,category,amount` and offers the commands
`add`, `list`, `summary`, `monthly`, `categories`, `delete`, both as a
single-shot argv dispatcher and as an interactive read loop.

Modelling conventions:
* Strings are Lean `String`s, manipulated through their `List Char` data.
  Python's `str.strip`, `str.lower`, `str.split()`, `str.isdigit`,
  `str.startswith` are modelled over ASCII (the program only ever compares
  ASCII command words and digit strings).
* The CSV layer (`csv.writer` / `csv.DictReader`) is modelled as a
  field-faithful row store: a file is a list of rows, a row a list of field
  strings, with the header row first.  The csv module's quoting round-trips
  fields verbatim, which is what this level of abstraction captures.
* Python floats are modelled by `PyFloat`: finite values as exact
  rationals, plus the non-finite floats `inf`, `-inf`, `nan` that `float()`
  also returns (from the literals `inf`/`infinity`/`nan` and from decimal
  literals overflowing the IEEE-double range, e.g. `1e400`).  Rounding to
  two decimals is exact half-up rounding on the finite values; the
  tie-break of generic binary float rounding is not observable at this
  granularity.  The store *read* path (`amountsQ`, used by list/summary/
  monthly totals) keeps the exact-rational fragment, with `none` for
  amounts that do not parse as finite decimals.
* `datetime.strptime(s, "%Y-%m-%d")` is modelled by CPython's actual
  `_strptime` regex fragments: `%Y ↦ \d\d\d\d`, `%m ↦ 1[0-2]|0[1-9]|[1-9]`,
  `%d ↦ 3[01]|[12]\d|0[1-9]|[1-9]`, with the whole string consumed, followed
  by the `datetime.date` calendar check (ordered alternation with
  backtracking, i.e. first full match wins).
-/

/-- ASCII decimal digit test (Python's regex `\d` / `str.isdigit` restricted
to ASCII). -/
def isD (c : Char) : Bool :=
  decide (c ∈ ['0', '1', '2', '3', '4', '5', '6', '7', '8', '9'])

/-- Numeric value of an ASCII digit character. -/
def dVal (c : Char) : Nat :=
  match c with
  | '0' => 0 | '1' => 1 | '2' => 2 | '3' => 3 | '4' => 4
  | '5' => 5 | '6' => 6 | '7' => 7 | '8' => 8 | '9' => 9
  | _ => 0

/-- The decimal value of a digit string, most significant digit first
(Python `int` on an all-digit string). -/
def natOfDigits (cs : List Char) : Nat :=
  cs.foldl (fun a c => 10 * a + dVal c) 0

/-- The character for a decimal digit. -/
def digitChar (d : Nat) : Char :=
  match d with
  | 0 => '0' | 1 => '1' | 2 => '2' | 3 => '3' | 4 => '4'
  | 5 => '5' | 6 => '6' | 7 => '7' | 8 => '8' | _ => '9'

/-- Decimal rendering of a natural number, fuelled so that it reduces in the
kernel; `natReprL n` always calls it with enough fuel. -/
def natReprGo : Nat → Nat → List Char
  | 0, _ => []
  | fuel + 1, n =>
    if n < 10 then [digitChar n]
    else natReprGo fuel (n / 10) ++ [digitChar (n % 10)]

/-- Decimal digit list of a natural number (Python `str` on a nonnegative
int). -/
def natReprL (n : Nat) : List Char := natReprGo (n + 1) n

/-- Decimal string of a natural number. -/
def natRepr (n : Nat) : String := ⟨natReprL n⟩

/-- Python whitespace, as stripped by `str.strip` / split by `str.split()`. -/
def isSpaceChar (c : Char) : Bool :=
  c = ' ' || c = '\t' || c = '\n' || c = '\r' || c = '\x0b' || c = '\x0c'

/-- Python `str.strip()`: remove leading and trailing whitespace. -/
def pyStrip (s : String) : String :=
  ⟨((s.data.dropWhile isSpaceChar).reverse.dropWhile isSpaceChar).reverse⟩

/-- Python `str.lower()` (ASCII range). -/
def pyLower (s : String) : String := ⟨s.data.map Char.toLower⟩

/-- Python `str.startswith`. -/
def pyStartswith (s p : String) : Bool := p.data.isPrefixOf s.data

/-- Python `str.isdigit()` (ASCII digits): nonempty and all digits. -/
def pyIsDigitStr (s : String) : Bool := !s.data.isEmpty && s.data.all isD

/-- Python `str.split()` with no arguments: split on whitespace runs,
dropping empty pieces. -/
def pySplitWs (s : String) : List String :=
  ((s.data.splitOnP isSpaceChar).filter (fun l => !l.isEmpty)).map (fun l => ⟨l⟩)

/-! ## Date validation: `datetime.strptime(s, "%Y-%m-%d")`

CPython compiles the format to the regex
`(\d\d\d\d)-(1[0-2]|0[1-9]|[1-9])-(3[01]|[12]\d|0[1-9]|[1-9])`, matched at
the start with the requirement that the whole string is consumed, then
builds `datetime.date(year, month, day)`, which raises `ValueError` unless
`1 ≤ year ≤ 9999`, `1 ≤ month ≤ 12` and `1 ≤ day ≤ daysInMonth`.  The
candidate lists below enumerate the regex alternatives for `%m` and `%d` in
alternation order; `List.findSome?` over them is exactly the backtracking
search (first full match wins). -/

/-- The ways `%m` = `1[0-2]|0[1-9]|[1-9]` can match a prefix of `cs`, in
alternation order, each with the month value and the rest of the input. -/
def monthCands (cs : List Char) : List (Nat × List Char) :=
  match cs with
  | c1 :: c2 :: r =>
    (if c1 = '1' ∧ (c2 = '0' ∨ c2 = '1' ∨ c2 = '2') then [(10 + dVal c2, r)] else []) ++
    (if c1 = '0' ∧ isD c2 = true ∧ c2 ≠ '0' then [(dVal c2, r)] else []) ++
    (if isD c1 = true ∧ c1 ≠ '0' then [(dVal c1, c2 :: r)] else [])
  | [c] => if isD c = true ∧ c ≠ '0' then [(dVal c, [])] else []
  | [] => []

/-- The ways `%d` = `3[01]|[12]\d|0[1-9]|[1-9]` can match a prefix of `cs`,
in alternation order. -/
def dayCands (cs : List Char) : List (Nat × List Char) :=
  match cs with
  | c1 :: c2 :: r =>
    (if c1 = '3' ∧ (c2 = '0' ∨ c2 = '1') then [(30 + dVal c2, r)] else []) ++
    (if (c1 = '1' ∨ c1 = '2') ∧ isD c2 = true then [(10 * dVal c1 + dVal c2, r)] else []) ++
    (if c1 = '0' ∧ isD c2 = true ∧ c2 ≠ '0' then [(dVal c2, r)] else []) ++
    (if isD c1 = true ∧ c1 ≠ '0' then [(dVal c1, c2 :: r)] else [])
  | [c] => if isD c = true ∧ c ≠ '0' then [(dVal c, [])] else []
  | [] => []

/-- Match `%d` against all of `cs` (the `%d` group is the last thing in the
format, so the rest of the input must be empty). -/
def tryDay (cs : List Char) : Option Nat :=
  (dayCands cs).findSome? (fun q => if q.2 = [] then some q.1 else none)

/-- Match `%m`, a literal `-`, then `%d` against all of `r` (backtracking
over the `%m` alternatives). -/
def tryMD (r : List Char) : Option (Nat × Nat) :=
  (monthCands r).findSome? (fun p =>
    match p.2 with
    | c :: r4 => if c = '-' then (tryDay r4).map (fun d => (p.1, d)) else none
    | [] => none)

/-- Match the whole `%Y-%m-%d` regex against `cs`, returning year, month and
day values on success. -/
def matchYMD (cs : List Char) : Option (Nat × Nat × Nat) :=
  match cs with
  | c1 :: c2 :: c3 :: c4 :: c5 :: r =>
    if isD c1 = true ∧ isD c2 = true ∧ isD c3 = true ∧ isD c4 = true ∧ c5 = '-' then
      (tryMD r).map (fun md => (natOfDigits [c1, c2, c3, c4], md.1, md.2))
    else none
  | _ => none

/-- Days in a month of the proleptic Gregorian calendar, as used by
`datetime.date`. -/
def daysInMonth (y m : Nat) : Nat :=
  if m = 2 then (if y % 4 = 0 ∧ (¬ y % 100 = 0 ∨ y % 400 = 0) then 29 else 28)
  else if m = 4 ∨ m = 6 ∨ m = 9 ∨ m = 11 then 30 else 31

/-- The range checks performed by the `datetime.date` constructor. -/
def calOK (y m d : Nat) : Bool :=
  decide (1 ≤ y ∧ y ≤ 9999 ∧ 1 ≤ m ∧ m ≤ 12 ∧ 1 ≤ d ∧ d ≤ daysInMonth y m)

/-- `valid_date` from the source: `datetime.strptime(s, "%Y-%m-%d")`
succeeds (the caller prints a hint and exits, or aborts the interactive
command, when this is false). -/
def valid_date (s : String) : Bool :=
  match matchYMD s.data with
  | some (y, m, d) => calOK y m d
  | none => false

/-- The month validation in `monthly_summary`:
`datetime.strptime(year_month + "-01", "%Y-%m-%d")` succeeds. -/
def valid_month (ym : String) : Bool := valid_date (ym ++ "-01")

/-! Deterministic shape characterisations of the same language, used to
state what the validator accepts in plain terms. -/

/-- A day field in plain terms: the whole remaining input is one or two
digits with value 1..31. -/
def dayShape (ds : List Char) : Option Nat :=
  if ds ≠ [] ∧ ds.all isD = true ∧ ds.length ≤ 2 ∧
      1 ≤ natOfDigits ds ∧ natOfDigits ds ≤ 31
  then some (natOfDigits ds) else none

/-- Month-dash-day in plain terms: a run of one or two digits with value
1..12, a hyphen, then a day shape to the end of the input. -/
def monthDayShape (r : List Char) : Option (Nat × Nat) :=
  let ms := r.takeWhile isD
  match r.dropWhile isD with
  | c :: ds =>
    if c = '-' ∧ ms ≠ [] ∧ ms.length ≤ 2 ∧
        1 ≤ natOfDigits ms ∧ natOfDigits ms ≤ 12
    then (dayShape ds).map (fun d => (natOfDigits ms, d)) else none
  | [] => none

/-- What date validation actually accepts, in plain terms: a four-digit
year, a hyphen, a one- or two-digit month in 1..12, a hyphen, and a one- or
two-digit day forming a real calendar date. -/
def amended_date_spec (s : String) : Bool :=
  match s.data with
  | c1 :: c2 :: c3 :: c4 :: c5 :: r =>
    if isD c1 = true ∧ isD c2 = true ∧ isD c3 = true ∧ isD c4 = true ∧ c5 = '-' then
      match monthDayShape r with
      | some (m, d) => calOK (natOfDigits [c1, c2, c3, c4]) m d
      | none => false
    else false
  | _ => false

/-- The claimed acceptance condition, following the spec's words: exactly a
four-digit year, a hyphen, a two-digit month 01-12, a hyphen, and a
two-digit day forming a real calendar date. -/
def claimed_date_spec (s : String) : Bool :=
  match s.data with
  | [y1, y2, y3, y4, a, m1, m2, b, d1, d2] =>
    if isD y1 = true ∧ isD y2 = true ∧ isD y3 = true ∧ isD y4 = true ∧ a = '-' ∧
        isD m1 = true ∧ isD m2 = true ∧ b = '-' ∧ isD d1 = true ∧ isD d2 = true then
      calOK (natOfDigits [y1, y2, y3, y4]) (natOfDigits [m1, m2]) (natOfDigits [d1, d2])
    else false
  | _ => false

/-! ## Amounts: Python `float(s)`, `round(x, 2)`, `f"{x:.2f}"`

Floats are modelled as exact rationals.  `pyFloatQ` parses the finite
decimal forms of Python float literals (optional sign, digits with an
optional point, optional exponent); non-finite literals (`inf`, `nan`) are
outside the rational model.  Rounding to two decimals is exact half-up
rounding on rationals (the source inherits generic float rounding, whose
tie-break is not observable here). -/

/-- An optional exponent suffix `e`/`E` followed by an optionally signed
digit run; the empty string means exponent 0. -/
def expPart (cs : List Char) : Option Int :=
  if cs = [] then some 0
  else if cs.head? = some 'e' ∨ cs.head? = some 'E' then
    let r := cs.tail
    let (neg, r1) :=
      if r.head? = some '-' then (true, r.tail)
      else if r.head? = some '+' then (false, r.tail) else (false, r)
    if r1 ≠ [] ∧ r1.all isD = true then
      some (if neg then -(natOfDigits r1 : Int) else (natOfDigits r1 : Int))
    else none
  else none

/-- Unsigned mantissa and exponent of a decimal float literal: the digit
value of the mantissa with the point removed, the number of fractional
digits, and the exponent. -/
def mantExp (cs : List Char) : Option (Nat × Nat × Int) :=
  let ip := cs.takeWhile isD
  let r1 := cs.dropWhile isD
  if r1.head? = some '.' then
    let fp := r1.tail.takeWhile isD
    let r2 := r1.tail.dropWhile isD
    if ip.isEmpty ∧ fp.isEmpty then none
    else (expPart r2).map (fun e => (natOfDigits (ip ++ fp), fp.length, e))
  else if ip.isEmpty then none
  else (expPart r1).map (fun e => (natOfDigits ip, 0, e))

/-- Fuelled binary exponentiation, so that powers with large exponents
evaluate in logarithmic depth; `powN b e` always calls it with enough
fuel, and `powN_eq` proves it is `b ^ e`. -/
def powGo : Nat → Nat → Nat → Nat → Nat
  | 0, _, _, acc => acc
  | fuel + 1, b, e, acc =>
    if e = 0 then acc
    else powGo fuel (b * b) (e / 2) (if e % 2 = 1 then acc * b else acc)

/-- `b ^ e`, computed by binary exponentiation (see `powN_eq`). -/
def powN (b e : Nat) : Nat := powGo (e + 1) b e 1

/-- The rational `±n · 10^(e-k)`, built with `mkRat` so that it reduces in
the kernel. -/
def qOfParts (n k : Nat) (e : Int) (neg : Bool) : ℚ :=
  let m : Int := if neg then -(n : Int) else (n : Int)
  let t : Int := e - (k : Int)
  if 0 ≤ t then mkRat (m * (powN 10 t.toNat : Int)) 1 else mkRat m (powN 10 (-t).toNat)

/-- The exact-rational reading of a decimal float literal: the finite
fragment of `float(s)`, used for the read-path totals (`amountsQ`), whose
theorems are stated only for stores of finite decimal amounts.  For the
full `float()` including its non-finite results see `pyFloat` below. -/
def pyFloatQ (s : String) : Option ℚ :=
  let cs := (pyStrip s).data
  let (neg, cs1) :=
    if cs.head? = some '-' then (true, cs.tail)
    else if cs.head? = some '+' then (false, cs.tail) else (false, cs)
  (mantExp cs1).map (fun p => qOfParts p.1 p.2.1 p.2.2 neg)

/-- `q` in hundredths, rounded half-up: `⌊q·100 + 1/2⌋` computed on the
numerator and denominator with integer floor division. -/
def roundC (q : ℚ) : Int :=
  Int.fdiv (200 * q.num + (q.den : Int)) (2 * (q.den : Int))

/-- Python `round(x, 2)` in the rational model. -/
def round2 (q : ℚ) : ℚ := mkRat (roundC q) 100

/-- A Python float value: finite (modelled as an exact rational), or one of
the non-finite floats `inf`, `-inf`, `nan` that `float()` can also
return. -/
inductive PyFloat
  | finite (q : ℚ)
  | inf
  | ninf
  | nan
deriving DecidableEq, Repr

/-- The IEEE-double overflow bound: under round-to-nearest, an exact value
`v` converts to `±inf` iff `|v| ≥ 2^1024 - 2^970` (the midpoint above the
largest finite double `(2 - 2^-52)·2^1023`).  Written as a literal so that
it evaluates without deep recursion; `overflowNum_eq` below checks that it
is `2^1024 - 2^970`. -/
def overflowNum : Int :=
  179769313486231580793728971405303415079934132710037826936173778980444968292764750946649017977587207096330286416692887910946555547851940402630657488671505820681908902000708383676273854845817711531764475730270069855571366959622842914819860834936475292719074168444365510704342711559699508093042880177904174497792

/-- Whether `float` overflows to `inf` on the exact value `q`
(`q ≥ 2^1024 - 2^970`, decided in integer arithmetic). -/
def qOverflows (q : ℚ) : Bool := decide (overflowNum * (q.den : Int) ≤ q.num)

/-- Whether `float` overflows to `-inf` on the exact value `q`. -/
def qOverflowsNeg (q : ℚ) : Bool := decide (q.num ≤ -overflowNum * (q.den : Int))

/-- Python `float(s)` in full: after strip and sign, the words `inf`,
`infinity` and `nan` (case-insensitive) give the non-finite floats (the
sign of `nan` is not observable in Python's output), a decimal literal
whose exact value lies beyond the IEEE-double range gives `±inf`, and any
other decimal literal gives its exact rational value.  `none` models the
`ValueError` path. -/
def pyFloat (s : String) : Option PyFloat :=
  let cs := (pyStrip s).data
  let (neg, cs1) :=
    if cs.head? = some '-' then (true, cs.tail)
    else if cs.head? = some '+' then (false, cs.tail) else (false, cs)
  let low := cs1.map Char.toLower
  if low = "inf".data ∨ low = "infinity".data then
    some (if neg then .ninf else .inf)
  else if low = "nan".data then some .nan
  else
    (mantExp cs1).map (fun p =>
      let q := qOfParts p.1 p.2.1 p.2.2 neg
      if qOverflows q = true then .inf
      else if qOverflowsNeg q = true then .ninf
      else .finite q)

/-- Python `round(x, 2)` on a float value: the non-finite floats are fixed
points; a finite value is rounded to two decimals. -/
def round2P : PyFloat → PyFloat
  | .finite q => .finite (round2 q)
  | x => x

/-- `parse_amount` from the source: `round(float(s), 2)`, with `none`
standing for the `sys.exit(1)` path (`ValueError`: amount not a number).
A non-finite `float()` result passes through unchanged, as in Python. -/
def parse_amount (s : String) : Option PyFloat := (pyFloat s).map round2P

/-- Python `f"{x:.2f}"`: sign, integer part, point, exactly two fractional
digits. -/
def fmt2 (q : ℚ) : String :=
  let n : Int := roundC q
  let a : Nat := n.natAbs
  ⟨(if n < 0 then ['-'] else []) ++ natReprL (a / 100) ++
    '.' :: [digitChar (a / 10 % 10), digitChar (a % 10)]⟩

/-- Python `f"{x:.2f}"` on a float value: `inf`, `-inf` and `nan` render
with no decimal places; a finite value renders in fixed two-decimal form. -/
def fmt2P : PyFloat → String
  | .finite q => fmt2 q
  | .inf => "inf"
  | .ninf => "-inf"
  | .nan => "nan"

/-- A string is a fixed-point decimal with exactly two fractional digits:
an optional minus sign, a nonempty digit run, a point, and exactly two
digits. -/
def isFixed2 (s : String) : Bool :=
  let cs := if s.data.head? = some '-' then s.data.tail else s.data
  let ip := cs.takeWhile isD
  match cs.dropWhile isD with
  | c :: a :: b :: t => !ip.isEmpty && decide (c = '.') && isD a && isD b && decide (t = [])
  | _ => false

/-- Python `int(s)` on a string: strip, optional sign, nonempty digit run;
`none` models the uncaught `ValueError`. -/
def pyInt (s : String) : Option Int :=
  let cs := (pyStrip s).data
  if cs.head? = some '-' then
    if cs.tail ≠ [] ∧ cs.tail.all isD = true then some (-(natOfDigits cs.tail : Int)) else none
  else if cs.head? = some '+' then
    if cs.tail ≠ [] ∧ cs.tail.all isD = true then some (natOfDigits cs.tail : Int) else none
  else if cs ≠ [] ∧ cs.all isD = true then some (natOfDigits cs : Int) else none

/-! ## The store

A file is its list of CSV rows (each a list of field strings), the header
row first; `none` at the `Option File` level means the backing file does
not exist yet.  `csv.DictReader` reads every row after the header as a
record under the fixed schema. -/

/-- One expense record as read back from the file: all four fields as the
stored text. -/
structure Rec where
  date : String
  description : String
  category : String
  amount : String
deriving DecidableEq, Repr

/-- A CSV file: its rows, header first. -/
abbrev File := List (List String)

/-- The fixed header row written by `ensure_csv` and `delete_expense`. -/
def headerRow : List String := ["date", "description", "category", "amount"]

/-- `ensure_csv` from the source: create a header-only file if the store
does not exist, otherwise leave it as it is. -/
def ensure_csv : Option File → File
  | none => [headerRow]
  | some f => f

/-- A data row as a record (`csv.DictReader` under the fixed schema). -/
def rowToRec (l : List String) : Rec :=
  ⟨l.getD 0 "", l.getD 1 "", l.getD 2 "", l.getD 3 ""⟩

/-- A record as a data row, in fixed column order. -/
def recToRow (r : Rec) : List String :=
  [r.date, r.description, r.category, r.amount]

/-- `read_rows` from the source: every row after the header, as records. -/
def read_rows (f : File) : List Rec := (f.drop 1).map rowToRec

/-- The records of a store that is first ensured to exist. -/
def readStore (f0 : Option File) : List Rec := read_rows (ensure_csv f0)

/-- `add_expense` from the source: ensure the file exists, then append one
row `[date, description, category.lower(), f"{amount:.2f}"]`. -/
def add_expense (f0 : Option File) (date desc category : String) (amount : PyFloat) : File :=
  ensure_csv f0 ++ [[date, desc, pyLower category, fmt2P amount]]

/-- Result of `delete_expense`: the file state afterwards, the removed
record if any, whether `sys.exit(1)` was called, and the printed message. -/
structure DelRes where
  file : File
  removed : Option Rec
  exited : Bool
  msg : String
deriving DecidableEq, Repr

/-- `delete_expense` from the source: ensure, read all rows; if the 1-based
index is out of `1..count`, print the valid range and exit; otherwise pop
the record and rewrite the whole file (header plus remaining rows). -/
def delete_expense (f0 : Option File) (k : Int) : DelRes :=
  let f := ensure_csv f0
  let rows := read_rows f
  if k < 1 ∨ (rows.length : Int) < k then
    ⟨f, none, true, " Invalid index. Use 1.." ++ natRepr rows.length⟩
  else
    let i := k.toNat - 1
    match rows[i]? with
    | some r =>
      ⟨headerRow :: (rows.eraseIdx i).map recToRow, some r, false,
        " Deleted #" ++ natRepr k.toNat ++ ": " ++ r.date ++ " | " ++ r.description ++
          " | " ++ r.category ++ " | $" ++ r.amount⟩
    | none => ⟨f, none, true, ""⟩  -- unreachable: an in-range index always has a row

/-- The amounts of a list of records as rationals; `none` models an
uncaught `ValueError` from `float` on a malformed stored amount. -/
def amountsQ (rows : List Rec) : Option (List ℚ) :=
  rows.mapM (fun r => pyFloatQ r.amount)

/-- The error message printed for a malformed month argument. -/
def monthErrMsg : String := " Month must be in 'YYYY-MM' format, e.g., 2025-09."

/-- Result of `monthly_summary`: exit after the message, crash on a
malformed stored amount, or the matching rows and their total. -/
inductive MRes
  | exits (file : File) (msg : String)
  | crash (file : File)
  | ok (file : File) (shown : List Rec) (total : ℚ)
deriving DecidableEq

/-- `monthly_summary` from the source: ensure, validate the month (exit on
failure), then keep exactly the rows whose date string starts with the
year-month prefix (lexical `startswith`), in file order, and total their
amounts. -/
def monthly_summary (ym : String) (f0 : Option File) : MRes :=
  let f := ensure_csv f0
  if valid_month ym = false then .exits f monthErrMsg
  else
    let rows := read_rows f
    let mrows := rows.filter (fun r => pyStartswith r.date ym)
    match amountsQ mrows with
    | none => .crash f
    | some qs => .ok f mrows qs.sum

/-- Result of `list_expenses`: the file state, the rows displayed, and the
grand total (`none` models a crash on a malformed stored amount). -/
structure ListRes where
  file : File
  shown : List Rec
  total : Option ℚ
deriving DecidableEq

/-- Python `rows[-l:]` for `l ≥ 1`: the last `l` elements. -/
def pyLastSlice (rows : List Rec) (l : Nat) : List Rec :=
  rows.drop (rows.length - l)

/-- `list_expenses` from the source: ensure, read all rows; `if limit:`
keeps only the last `limit` rows (`None` and `0` are both falsy, so they
show everything); print them with a running total. -/
def list_expenses (f0 : Option File) (limit : Option Nat) : ListRes :=
  let f := ensure_csv f0
  let rows := read_rows f
  let shown :=
    match limit with
    | none => rows
    | some l => if l = 0 then rows else pyLastSlice rows l
  ⟨f, shown, (amountsQ shown).map List.sum⟩

/-! ## Single-shot interface (`main`) -/

/-- Outcome of a single-shot invocation: the usage banner, entering
interactive mode, normal completion, `sys.exit(1)` after a message, or an
uncaught exception; each carries the store state afterwards. -/
inductive Out
  | usageOut (f : Option File)
  | interactiveOut (f : Option File)
  | doneOut (f : Option File)
  | exit1 (f : Option File) (msg : String)
  | crashOut (f : Option File)
deriving DecidableEq

/-- The date error message printed by `valid_date`'s failure path. -/
def dateErrMsg : String := " Date must be in YYYY-MM-DD format, e.g., 2025-09-20."

/-- The amount error message printed by `parse_amount`'s failure path. -/
def amountErrMsg : String := " Amount must be a number. Example: 12.50"

/-- The optional `list` limit: `int(args[1]) if len(args) == 2 and
args[1].isdigit() else None`, over the arguments after the command word. -/
def listLimitArg (rest : List String) : Option Nat :=
  match rest with
  | [a] => if pyIsDigitStr a = true then some (natOfDigits a.data) else none
  | _ => none

/-- `main` from the source: dispatch on the first argument.  `add` fires on
at least 4 further arguments (extras ignored) and validates before any
store mutation; `monthly` and `delete` need exactly one further argument;
anything else prints the usage banner.  `delete`'s argument goes through
`int()` unguarded, so a non-integer argument is an uncaught exception. -/
def runMain (args : List String) (f0 : Option File) : Out :=
  match args with
  | [] => .interactiveOut f0
  | cmd :: rest =>
    if cmd = "add" ∧ 4 ≤ rest.length then
      if valid_date (rest.getD 0 "") = false then .exit1 f0 dateErrMsg
      else
        match parse_amount (rest.getD 3 "") with
        | none => .exit1 f0 amountErrMsg
        | some a =>
          .doneOut (some (add_expense f0 (rest.getD 0 "")
            (rest.getD 1 "") (pyLower (rest.getD 2 "")) a))
    else if cmd = "list" then
      let res := list_expenses f0 (listLimitArg rest)
      if res.total = none then .crashOut (some res.file) else .doneOut (some res.file)
    else if cmd = "summary" then
      let f := ensure_csv f0
      if amountsQ (read_rows f) = none then .crashOut (some f) else .doneOut (some f)
    else if cmd = "monthly" ∧ rest.length = 1 then
      match monthly_summary (rest.getD 0 "") f0 with
      | .exits f m => .exit1 (some f) m
      | .crash f => .crashOut (some f)
      | .ok f _ _ => .doneOut (some f)
    else if cmd = "categories" then .doneOut f0
    else if cmd = "delete" ∧ rest.length = 1 then
      match pyInt (rest.getD 0 "") with
      | none => .crashOut f0
      | some k =>
        let d := delete_expense f0 k
        if d.exited then .exit1 (some d.file) d.msg else .doneOut (some d.file)
    else .usageOut f0

/-! ## Interactive interface (one iteration of the read loop) -/

/-- Outcome of one iteration of the interactive loop: continue with a new
store state, leave the loop (`quit`/`exit`), terminate the process through
`sys.exit(1)`, or crash. -/
inductive IOut
  | cont (f : Option File)
  | quit (f : Option File)
  | exit1 (f : Option File) (msg : String)
  | crash (f : Option File)
deriving DecidableEq

/-- One iteration of `interactive`'s `while True` loop.  `line` is the
typed command line (stripped and lower-cased before matching), `subs` the
queue of answers to the `add` prompts, `today` today's date string (the
default for an empty date answer).  The `add` path validates the date and
amount inline and merely `continue`s on failure; `monthly` and `delete`
call the shared operations, whose failure paths call `sys.exit(1)`. -/
def interStep (today line : String) (subs : List String) (f0 : Option File) : IOut :=
  let cmd := pyLower (pyStrip line)
  if cmd = "quit" ∨ cmd = "exit" then .quit f0
  else if cmd = "help" ∨ cmd = "?" then .cont f0
  else if pyStartswith cmd "add" = true then
    let d0 := pyStrip (subs.getD 0 "")
    let date := if d0 = "" then today else d0
    if valid_date date = false then .cont f0
    else
      let desc := pyStrip (subs.getD 1 "")
      let cat := pyLower (pyStrip (subs.getD 2 ""))
      match pyFloat (pyStrip (subs.getD 3 "")) with
      | none => .cont f0
      | some a => .cont (some (add_expense f0 date desc cat (round2P a)))
  else if pyStartswith cmd "list" = true then
    let limit :=
      match pySplitWs cmd with
      | [_, n] => if pyIsDigitStr n = true then some (natOfDigits n.data) else none
      | _ => none
    let res := list_expenses f0 limit
    if res.total = none then .crash (some res.file) else .cont (some res.file)
  else if cmd = "summary" then
    let f := ensure_csv f0
    if amountsQ (read_rows f) = none then .crash (some f) else .cont (some f)
  else if pyStartswith cmd "monthly" = true then
    match pySplitWs cmd with
    | [_, ym] =>
      (match monthly_summary ym f0 with
       | .exits f m => .exit1 (some f) m
       | .crash f => .crash (some f)
       | .ok f _ _ => .cont (some f))
    | _ => .cont f0
  else if cmd = "categories" then .cont f0
  else if pyStartswith cmd "delete" = true then
    match pySplitWs cmd with
    | [_, n] =>
      if pyIsDigitStr n = true then
        let d := delete_expense f0 (natOfDigits n.data : Int)
        if d.exited then .exit1 (some d.file) d.msg else .cont (some d.file)
      else .cont f0
    | _ => .cont f0
  else .cont f0

/-! ## Sequences of store operations -/

/-- A store-mutating operation: an `Add` with already-validated fields and
parsed amount, or a `Delete` at a 1-based index. -/
inductive Op
  | add (date desc cat : String) (amt : PyFloat)
  | del (k : Int)

/-- Whether an operation is a Delete, or an Add whose amount is a finite
float value. -/
def Op.finiteAdd : Op → Bool
  | .add _ _ _ (.finite _) => true
  | .add _ _ _ _ => false
  | .del _ => true

/-- The store state after one operation (whether or not the operation
reported an error). -/
def applyOp (f0 : Option File) : Op → Option File
  | .add d de c a => some (add_expense f0 d de c a)
  | .del k => some ((delete_expense f0 k).file)

/-- The store state after a sequence of operations. -/
def applyOps (f0 : Option File) (ops : List Op) : Option File :=
  ops.foldl applyOp f0

/-- Every record in the store has its amount serialized with exactly two
decimal places. -/
def allFixed2 (f0 : Option File) : Bool :=
  (readStore f0).all (fun r => isFixed2 r.amount)

lemma isD_cases {c : Char} (h : isD c = true) :
    c = '0' ∨ c = '1' ∨ c = '2' ∨ c = '3' ∨ c = '4' ∨
      c = '5' ∨ c = '6' ∨ c = '7' ∨ c = '8' ∨ c = '9' := by
  simpa only [isD, List.mem_cons, List.not_mem_nil, or_false, decide_eq_true_eq] using h

lemma isD_ne {c : Char} (h : isD c = false) :
    c ≠ '0' ∧ c ≠ '1' ∧ c ≠ '2' ∧ c ≠ '3' ∧ c ≠ '4' ∧
      c ≠ '5' ∧ c ≠ '6' ∧ c ≠ '7' ∧ c ≠ '8' ∧ c ≠ '9' := by
  simpa only [isD, List.mem_cons, List.not_mem_nil, or_false,
    decide_eq_false_iff_not, not_or] using h

lemma isD_ne_dash {c : Char} (h : isD c = true) : ¬ c = '-' := by
  rcases isD_cases h with rfl | rfl | rfl | rfl | rfl | rfl | rfl | rfl | rfl | rfl <;> decide

lemma one_le_dVal_iff {c : Char} (h : isD c = true) : 1 ≤ dVal c ↔ ¬ c = '0' := by
  rcases isD_cases h with rfl | rfl | rfl | rfl | rfl | rfl | rfl | rfl | rfl | rfl <;> decide

lemma dVal_le_nine {c : Char} (h : isD c = true) : dVal c ≤ 9 := by
  rcases isD_cases h with rfl | rfl | rfl | rfl | rfl | rfl | rfl | rfl | rfl | rfl <;> decide

lemma dVal_le_two_iff {c : Char} (h : isD c = true) :
    dVal c ≤ 2 ↔ (c = '0' ∨ c = '1' ∨ c = '2') := by
  rcases isD_cases h with rfl | rfl | rfl | rfl | rfl | rfl | rfl | rfl | rfl | rfl <;> decide

lemma natOfDigits_one (c : Char) : natOfDigits [c] = dVal c := by
  simp [natOfDigits]

lemma natOfDigits_two (c1 c2 : Char) : natOfDigits [c1, c2] = 10 * dVal c1 + dVal c2 := by
  simp [natOfDigits, List.foldl]

lemma tryDay_eq (ds : List Char) : tryDay ds = dayShape ds := by
  match ds with
  | [] => simp [tryDay, dayCands, dayShape]
  | [c] =>
    by_cases hc : isD c = true
    · rcases isD_cases hc with rfl | rfl | rfl | rfl | rfl | rfl | rfl | rfl | rfl | rfl <;> decide
    · rw [Bool.not_eq_true] at hc
      have hR : dayShape [c] = none := by simp [dayShape, hc]
      rw [hR]
      simp [tryDay, dayCands, hc]
  | [c1, c2] =>
    by_cases h1 : isD c1 = true
    · by_cases h2 : isD c2 = true
      · rcases isD_cases h1 with rfl | rfl | rfl | rfl | rfl | rfl | rfl | rfl | rfl | rfl <;>
          rcases isD_cases h2 with rfl | rfl | rfl | rfl | rfl | rfl | rfl | rfl | rfl | rfl <;>
          decide
      · rw [Bool.not_eq_true] at h2
        obtain ⟨m0, m1, -⟩ := isD_ne h2
        have hR : dayShape [c1, c2] = none := by simp [dayShape, h2]
        rw [hR]
        simp only [tryDay, dayCands, h2, m0, m1]
        split_ifs <;> simp_all [List.findSome?]
    · rw [Bool.not_eq_true] at h1
      obtain ⟨n0, n1, n2, n3, -⟩ := isD_ne h1
      have hR : dayShape [c1, c2] = none := by simp [dayShape, h1]
      rw [hR]
      simp only [tryDay, dayCands, h1, n0, n1, n2, n3]
      split_ifs <;> simp_all [List.findSome?]
  | c1 :: c2 :: c3 :: r =>
    have hR : dayShape (c1 :: c2 :: c3 :: r) = none := by
      simp only [dayShape, List.length_cons]
      rw [if_neg]
      rintro ⟨-, -, hlen, -⟩
      omega
    rw [hR]
    simp only [tryDay, dayCands]
    split_ifs <;> simp [List.findSome?]

lemma month2_iff {c1 c2 : Char} (h1 : isD c1 = true) (h2 : isD c2 = true) :
    ((c1 = '1' ∧ (c2 = '0' ∨ c2 = '1' ∨ c2 = '2')) ∨ (c1 = '0' ∧ isD c2 = true ∧ c2 ≠ '0'))
      ↔ (1 ≤ 10 * dVal c1 + dVal c2 ∧ 10 * dVal c1 + dVal c2 ≤ 12) := by
  rcases isD_cases h1 with rfl | rfl | rfl | rfl | rfl | rfl | rfl | rfl | rfl | rfl <;>
    rcases isD_cases h2 with rfl | rfl | rfl | rfl | rfl | rfl | rfl | rfl | rfl | rfl <;>
    decide

set_option maxHeartbeats 2000000 in
lemma tryMD_eq (r : List Char) : tryMD r = monthDayShape r := by
  match r with
  | [] => simp [tryMD, monthCands, monthDayShape]
  | [c] =>
    have hR : monthDayShape [c] = none := by
      by_cases hc : isD c = true <;>
        simp [monthDayShape, List.takeWhile_cons, List.dropWhile_cons, hc]
    rw [hR]
    simp only [tryMD, monthCands]
    split_ifs <;> simp [List.findSome?]
  | c1 :: c2 :: r' =>
    by_cases h1 : isD c1 = true
    · by_cases hd : c2 = '-'
      · subst hd
        rcases isD_cases h1 with rfl | rfl | rfl | rfl | rfl | rfl | rfl | rfl | rfl | rfl <;>
          simp +decide [tryMD, monthCands, monthDayShape, List.takeWhile_cons,
            List.dropWhile_cons, List.findSome?, natOfDigits, List.foldl, dVal, tryDay_eq] <;>
          (cases dayShape r' <;> rfl)
      · by_cases h2 : isD c2 = true
        · match r' with
          | [] =>
            have hR : monthDayShape [c1, c2] = none := by
              simp [monthDayShape, List.takeWhile_cons, List.dropWhile_cons, h1, h2]
            rw [hR]
            simp only [tryMD, monthCands]
            split_ifs <;> simp [List.findSome?, hd]
          | c3 :: r'' =>
            by_cases h3 : isD c3 = true
            · have hnd3 : ¬ c3 = '-' := isD_ne_dash h3
              have hR : monthDayShape (c1 :: c2 :: c3 :: r'') = none := by
                simp only [monthDayShape, List.takeWhile_cons, List.dropWhile_cons,
                  h1, h2, h3, if_true]
                split
                all_goals first
                  | rfl
                  | (rw [if_neg]; rintro ⟨-, -, hlen, -⟩; simp at hlen)
              rw [hR]
              simp only [tryMD, monthCands]
              split_ifs <;> simp [List.findSome?, hd, hnd3]
            · by_cases hd3 : c3 = '-'
              · subst hd3
                rcases isD_cases h1 with rfl | rfl | rfl | rfl | rfl | rfl | rfl | rfl | rfl | rfl <;>
                  rcases isD_cases h2 with rfl | rfl | rfl | rfl | rfl | rfl | rfl | rfl | rfl | rfl <;>
                  simp +decide [tryMD, monthCands, monthDayShape, List.takeWhile_cons,
                    List.dropWhile_cons, List.findSome?, natOfDigits, List.foldl, dVal, tryDay_eq] <;>
                  (try (cases dayShape r'' <;> rfl))
              · rw [Bool.not_eq_true] at h3
                have hR : monthDayShape (c1 :: c2 :: c3 :: r'') = none := by
                  simp [monthDayShape, List.takeWhile_cons, List.dropWhile_cons,
                    h1, h2, h3, hd3]
                rw [hR]
                simp only [tryMD, monthCands]
                split_ifs <;> simp [List.findSome?, hd, hd3]
        · rw [Bool.not_eq_true] at h2
          obtain ⟨m0, m1, m2, -⟩ := isD_ne h2
          have hR : monthDayShape (c1 :: c2 :: r') = none := by
            simp [monthDayShape, List.takeWhile_cons, List.dropWhile_cons, h1, h2, hd]
          rw [hR]
          simp only [tryMD, monthCands, h2, m0, m1, m2]
          split_ifs <;> simp_all [List.findSome?, hd]
    · rw [Bool.not_eq_true] at h1
      obtain ⟨n0, n1, -⟩ := isD_ne h1
      have hR : monthDayShape (c1 :: c2 :: r') = none := by
        simp [monthDayShape, List.takeWhile_cons, List.dropWhile_cons, h1]
      rw [hR]
      simp only [tryMD, monthCands, h1, n0, n1]
      split_ifs <;> simp_all [List.findSome?]

lemma data_mk (cs : List Char) : (String.mk cs).data = cs := rfl

lemma valid_date_eq_shape (s : String) : valid_date s = amended_date_spec s := by
  obtain ⟨cs⟩ := s
  rcases cs with _ | ⟨c1, _ | ⟨c2, _ | ⟨c3, _ | ⟨c4, _ | ⟨c5, r⟩⟩⟩⟩⟩ <;>
    simp only [valid_date, amended_date_spec, matchYMD, data_mk]
  case mk.cons.cons.cons.cons.cons =>
    by_cases hcond : isD c1 = true ∧ isD c2 = true ∧ isD c3 = true ∧ isD c4 = true ∧ c5 = '-'
    · rw [if_pos hcond, if_pos hcond, tryMD_eq]
      cases monthDayShape r with
      | none => rfl
      | some md => rfl
    · rw [if_neg hcond, if_neg hcond]

/-! ## Store lemmas -/

lemma rowToRec_recToRow (r : Rec) : rowToRec (recToRow r) = r := rfl

lemma read_rows_header_map (rows : List Rec) :
    read_rows (headerRow :: rows.map recToRow) = rows := by
  have hco : rowToRec ∘ recToRow = id := funext rowToRec_recToRow
  simp [read_rows, List.map_map, hco]

lemma readStore_def (f0 : Option File) : readStore f0 = read_rows (ensure_csv f0) := rfl

lemma delete_expense_out_of_range (f0 : Option File) (k : Int)
    (h : k < 1 ∨ ((readStore f0).length : Int) < k) :
    delete_expense f0 k =
      ⟨ensure_csv f0, none, true, " Invalid index. Use 1.." ++ natRepr (readStore f0).length⟩ := by
  simp only [delete_expense, ← readStore_def]
  rw [if_pos h]

lemma delete_expense_in_range (f0 : Option File) (k : Nat) (h1 : 1 ≤ k)
    (h2 : k ≤ (readStore f0).length) :
    delete_expense f0 (k : Int) =
      ⟨headerRow :: ((readStore f0).eraseIdx (k - 1)).map recToRow,
        (readStore f0)[k - 1]?, false,
        " Deleted #" ++ natRepr k ++ ": " ++ ((readStore f0).get ⟨k - 1, by omega⟩).date ++
          " | " ++ ((readStore f0).get ⟨k - 1, by omega⟩).description ++
          " | " ++ ((readStore f0).get ⟨k - 1, by omega⟩).category ++
          " | $" ++ ((readStore f0).get ⟨k - 1, by omega⟩).amount⟩ := by
  simp only [delete_expense, ← readStore_def]
  rw [if_neg (by omega)]
  have htn : (k : Int).toNat = k := by omega
  rw [htn]
  have hlt : k - 1 < (readStore f0).length := by omega
  rw [List.getElem?_eq_getElem hlt]
  simp [List.get_eq_getElem]

lemma eraseIdx_take_drop (rows : List Rec) (k : Nat) (h1 : 1 ≤ k) :
    rows.eraseIdx (k - 1) = rows.take (k - 1) ++ rows.drop k := by
  rw [List.eraseIdx_eq_take_drop_succ, Nat.sub_add_cancel h1]

lemma ensure_some (f : File) : ensure_csv (some f) = f := rfl

lemma readStore_add (f0 : Option File) (h : ensure_csv f0 ≠ [])
    (d de c : String) (a : PyFloat) :
    readStore (some (add_expense f0 d de c a)) =
      readStore f0 ++ [⟨d, de, pyLower c, fmt2P a⟩] := by
  rcases hE : ensure_csv f0 with - | ⟨hd, tl⟩
  · exact absurd hE h
  · simp only [readStore, add_expense, ensure_some, hE]
    simp [read_rows, rowToRec]

/-! ## Two-decimal rendering lemmas -/

lemma natReprGo_good : ∀ (fuel n : Nat), n < fuel →
    natReprGo fuel n ≠ [] ∧ (natReprGo fuel n).all isD = true := by
  intro fuel
  induction fuel with
  | zero => omega
  | succ fuel ih =>
    intro n hn
    simp only [natReprGo]
    split
    · rename_i h10
      have hdc : isD (digitChar n) = true := by interval_cases n <;> decide
      simp [hdc]
    · rename_i h10
      have hrec := ih (n / 10) (by omega)
      have hmod : isD (digitChar (n % 10)) = true := by
        have hlt : n % 10 < 10 := Nat.mod_lt _ (by omega)
        interval_cases h : n % 10 <;> decide
      refine ⟨by simp, ?_⟩
      rw [List.all_append]
      simp [hrec.2, hmod]

lemma natReprL_ne_nil (n : Nat) : natReprL n ≠ [] :=
  (natReprGo_good (n + 1) n (by omega)).1

lemma natReprL_all_isD (n : Nat) : (natReprL n).all isD = true :=
  (natReprGo_good (n + 1) n (by omega)).2

lemma takeWhile_all_append {l : List Char} (h : l.all isD = true)
    {c : Char} (hc : isD c = false) (t : List Char) :
    (l ++ c :: t).takeWhile isD = l ∧ (l ++ c :: t).dropWhile isD = c :: t := by
  induction l with
  | nil => simp [List.takeWhile_cons, List.dropWhile_cons, hc]
  | cons x xs ih =>
    rw [List.all_cons, Bool.and_eq_true] at h
    have := ih h.2
    simp [List.takeWhile_cons, List.dropWhile_cons, h.1, this.1, this.2]

lemma digitChar_isD {d : Nat} (h : d < 10) : isD (digitChar d) = true := by
  interval_cases d <;> decide

lemma isFixed2_shape (sign L : List Char) (d1 d2 : Char)
    (hs : sign = [] ∨ sign = ['-'])
    (hall : L.all isD = true) (hnil : L ≠ [])
    (h1 : isD d1 = true) (h2 : isD d2 = true) :
    isFixed2 ⟨sign ++ L ++ '.' :: [d1, d2]⟩ = true := by
  obtain ⟨x, xs, hL⟩ : ∃ x xs, L = x :: xs := by
    rcases L with - | ⟨x, xs⟩
    · exact absurd rfl hnil
    · exact ⟨x, xs, rfl⟩
  have hx : isD x = true := by
    rw [hL, List.all_cons, Bool.and_eq_true] at hall
    exact hall.1
  have hxd : ¬ x = '-' := by
    intro hxe
    rw [hxe] at hx
    exact absurd hx (by decide)
  have hdot : isD '.' = false := by decide
  obtain ⟨htw, hdw⟩ := takeWhile_all_append hall hdot [d1, d2]
  rcases hs with rfl | rfl
  · simp only [isFixed2, data_mk, List.nil_append]
    rw [hL]
    rw [if_neg (by simp [hxd])]
    rw [← hL, htw, hdw]
    simp [hnil, h1, h2]
  · simp only [isFixed2, data_mk, List.cons_append, List.nil_append]
    rw [if_pos (by rw [List.head?_cons]), List.tail_cons]
    rw [htw, hdw]
    simp [hnil, h1, h2]

lemma isFixed2_fmt2 (q : ℚ) : isFixed2 (fmt2 q) = true := by
  simp only [fmt2]
  have h1 : isD (digitChar ((roundC q).natAbs / 10 % 10)) = true :=
    digitChar_isD (Nat.mod_lt _ (by omega))
  have h2 : isD (digitChar ((roundC q).natAbs % 10)) = true :=
    digitChar_isD (Nat.mod_lt _ (by omega))
  by_cases hneg : roundC q < 0
  · rw [if_pos hneg]
    exact isFixed2_shape ['-'] _ _ _ (Or.inr rfl) (natReprL_all_isD _) (natReprL_ne_nil _) h1 h2
  · rw [if_neg hneg]
    exact isFixed2_shape [] _ _ _ (Or.inl rfl) (natReprL_all_isD _) (natReprL_ne_nil _) h1 h2

/-! ## Interactive-loop branch lemmas -/

lemma startswith_shape {s p : String} (h : pyStartswith s p = true) :
    ∃ t, s.data = p.data ++ t := by
  rw [pyStartswith, List.isPrefixOf_iff_prefix] at h
  obtain ⟨t, ht⟩ := h
  exact ⟨t, ht.symm⟩

lemma string_ne_of_head {s t : String} {a b : Char} {as bs : List Char}
    (hs : s.data = a :: as) (ht : t.data = b :: bs) (hne : ¬ a = b) : ¬ s = t := by
  intro h
  rw [h, ht] at hs
  exact hne (List.cons.injEq .. ▸ hs).1.symm

lemma startswith_ne_of_head (p : String) {s : String} {a : Char} {as : List Char}
    (hs : s.data = a :: as) {b : Char} {bs : List Char} (hp : p.data = b :: bs)
    (hne : (b == a) = false) : ¬ pyStartswith s p = true := by
  rw [pyStartswith, hs, hp]
  simp [List.isPrefixOf, hne]

lemma interStep_add_bad_date (today line : String) (subs : List String) (f0 : Option File)
    (hcmd : pyStartswith (pyLower (pyStrip line)) "add" = true)
    (hdate : valid_date (if pyStrip (subs.getD 0 "") = "" then today
      else pyStrip (subs.getD 0 "")) = false) :
    interStep today line subs f0 = .cont f0 := by
  obtain ⟨t, ht⟩ := startswith_shape hcmd
  have hdata : (pyLower (pyStrip line)).data = 'a' :: ('d' :: 'd' :: t) := ht
  simp only [interStep]
  rw [if_neg ?_, if_neg ?_, if_pos hcmd, if_pos hdate]
  · rintro (h | h)
    · exact string_ne_of_head hdata rfl (by decide) h
    · exact string_ne_of_head hdata rfl (by decide) h
  · rintro (h | h)
    · exact string_ne_of_head hdata rfl (by decide) h
    · exact string_ne_of_head hdata rfl (by decide) h

lemma interStep_monthly_bad (today line : String) (subs : List String) (f0 : Option File)
    (ym : String)
    (hcmd : pyStartswith (pyLower (pyStrip line)) "monthly" = true)
    (hsplit : pySplitWs (pyLower (pyStrip line)) = ["monthly", ym])
    (hym : valid_month ym = false) :
    interStep today line subs f0 = .exit1 (some (ensure_csv f0)) monthErrMsg := by
  obtain ⟨t, ht⟩ := startswith_shape hcmd
  have hdata : (pyLower (pyStrip line)).data = 'm' :: ('o' :: 'n' :: 't' :: 'h' :: 'l' :: 'y' :: t) := ht
  simp only [interStep]
  rw [if_neg ?_, if_neg ?_,
    if_neg (startswith_ne_of_head "add" hdata rfl (by decide)),
    if_neg (startswith_ne_of_head "list" hdata rfl (by decide)),
    if_neg (string_ne_of_head hdata rfl (by decide)),
    if_pos hcmd, hsplit]
  · simp only [monthly_summary, hym]
    rfl
  · rintro (h | h)
    · exact string_ne_of_head hdata rfl (by decide) h
    · exact string_ne_of_head hdata rfl (by decide) h
  · rintro (h | h)
    · exact string_ne_of_head hdata rfl (by decide) h
    · exact string_ne_of_head hdata rfl (by decide) h

lemma interStep_delete_bad (today line : String) (subs : List String) (f0 : Option File)
    (ns : String)
    (hcmd : pyStartswith (pyLower (pyStrip line)) "delete" = true)
    (hsplit : pySplitWs (pyLower (pyStrip line)) = ["delete", ns])
    (hdig : pyIsDigitStr ns = true)
    (hrange : (natOfDigits ns.data : Int) < 1 ∨
      ((readStore f0).length : Int) < (natOfDigits ns.data : Int)) :
    interStep today line subs f0 =
      .exit1 (some (ensure_csv f0))
        (" Invalid index. Use 1.." ++ natRepr (readStore f0).length) := by
  obtain ⟨t, ht⟩ := startswith_shape hcmd
  have hdata : (pyLower (pyStrip line)).data = 'd' :: ('e' :: 'l' :: 'e' :: 't' :: 'e' :: t) := ht
  simp only [interStep]
  rw [if_neg ?_, if_neg ?_,
    if_neg (startswith_ne_of_head "add" hdata rfl (by decide)),
    if_neg (startswith_ne_of_head "list" hdata rfl (by decide)),
    if_neg (string_ne_of_head hdata rfl (by decide)),
    if_neg (startswith_ne_of_head "monthly" hdata rfl (by decide)),
    if_neg (string_ne_of_head hdata rfl (by decide)),
    if_pos hcmd, hsplit]
  · have hdel := delete_expense_out_of_range f0 (natOfDigits ns.data : Int)
      (by rcases hrange with h | h
          · exact Or.inl h
          · exact Or.inr h)
    simp only [hdel, hdig]
    rfl
  · rintro (h | h)
    · exact string_ne_of_head hdata rfl (by decide) h
    · exact string_ne_of_head hdata rfl (by decide) h
  · rintro (h | h)
    · exact string_ne_of_head hdata rfl (by decide) h
    · exact string_ne_of_head hdata rfl (by decide) h

/-! ## Invariant preservation -/

lemma allFixed2_applyOp (f0 : Option File) (op : Op) (h : allFixed2 f0 = true)
    (hop : op.finiteAdd = true) :
    allFixed2 (applyOp f0 op) = true := by
  cases op with
  | add d de c a =>
    cases a with
    | finite q =>
      rcases hE : ensure_csv f0 with - | ⟨hd, tl⟩
      · simp [allFixed2, applyOp, readStore_def, ensure_some, add_expense, hE, read_rows]
      · have hr := readStore_add f0 (by rw [hE]; exact List.cons_ne_nil _ _) d de c (.finite q)
        simp only [applyOp, allFixed2, hr, List.all_append]
        rw [Bool.and_eq_true]
        exact ⟨h, by simp [fmt2P, isFixed2_fmt2]⟩
    | inf => simp [Op.finiteAdd] at hop
    | ninf => simp [Op.finiteAdd] at hop
    | nan => simp [Op.finiteAdd] at hop
  | del k =>
    by_cases hk : k < 1 ∨ ((readStore f0).length : Int) < k
    · rw [applyOp, delete_expense_out_of_range f0 k hk]
      simpa only [allFixed2, readStore_def, ensure_some] using h
    · push_neg at hk
      obtain ⟨hk1, hk2⟩ := hk
      have hkn1 : 1 ≤ k.toNat := by omega
      have hkn2 : k.toNat ≤ (readStore f0).length := by omega
      have hkk : k = ((k.toNat : Nat) : Int) := by omega
      have hdel := delete_expense_in_range f0 k.toNat hkn1 hkn2
      simp only [applyOp]
      rw [hkk, hdel]
      simp only [allFixed2, readStore_def, ensure_some, read_rows_header_map]
      rw [List.all_eq_true]
      rw [allFixed2, List.all_eq_true] at h
      intro x hx
      exact h x ((List.eraseIdx_sublist _ _).subset hx)

lemma powGo_eq : ∀ (fuel b e acc : Nat), e < fuel → powGo fuel b e acc = acc * b ^ e := by
  intro fuel
  induction fuel with
  | zero => omega
  | succ fuel ih =>
    intro b e acc h
    rw [powGo]
    split
    · rename_i he
      subst he
      simp
    · rename_i he
      obtain ⟨k, hkk⟩ : ∃ k, k = e / 2 := ⟨_, rfl⟩
      have h2 : e / 2 < fuel := by omega
      rw [ih (b * b) (e / 2) _ h2, ← hkk]
      have hb : (b * b) ^ k = b ^ (2 * k) := by
        rw [← pow_two, ← pow_mul]
      split
      · rename_i hodd
        rw [hb, show e = 2 * k + 1 from by omega, pow_succ]
        ring
      · rename_i heven
        rw [hb, show e = 2 * k from by omega]

lemma powN_eq (b e : Nat) : powN b e = b ^ e := by
  rw [powN, powGo_eq _ _ _ _ (by omega), one_mul]

lemma overflowNum_eq : overflowNum = 2 ^ 1024 - 2 ^ 970 := by
  norm_num [overflowNum]

/-! ## The claims -/

/-- C1 (counterexample): the claim says the interactive interface never
terminates the process on a failed validation.  But one loop iteration on
`monthly 2025-13` (malformed month) and one on `delete 1` against an empty
store both end in `sys.exit(1)`: the shared operations terminate the whole
process. -/
theorem c1_interactive_exit_counterexample :
    interStep "2025-09-20" "monthly 2025-13" [] none =
      .exit1 (some [headerRow]) monthErrMsg ∧
    interStep "2025-09-20" "delete 1" [] none =
      .exit1 (some [headerRow]) " Invalid index. Use 1..0" := by
  constructor <;> decide

/-- C1 (amended): in interactive mode only the `add` prompt sequence aborts
just the current command on a bad date (the loop continues, store
untouched); a malformed YYYY-MM argument to `monthly` and an out-of-range
index to `delete` go through the shared operations, which terminate the
process via `sys.exit(1)`. -/
theorem c1_interactive_amended :
    (∀ today line subs f0,
      pyStartswith (pyLower (pyStrip line)) "add" = true →
      valid_date (if pyStrip (subs.getD 0 "") = "" then today
        else pyStrip (subs.getD 0 "")) = false →
      interStep today line subs f0 = .cont f0) ∧
    (∀ today line subs f0 ym,
      pyStartswith (pyLower (pyStrip line)) "monthly" = true →
      pySplitWs (pyLower (pyStrip line)) = ["monthly", ym] →
      valid_month ym = false →
      interStep today line subs f0 = .exit1 (some (ensure_csv f0)) monthErrMsg) ∧
    (∀ today line subs f0 ns,
      pyStartswith (pyLower (pyStrip line)) "delete" = true →
      pySplitWs (pyLower (pyStrip line)) = ["delete", ns] →
      pyIsDigitStr ns = true →
      ((natOfDigits ns.data : Int) < 1 ∨
        ((readStore f0).length : Int) < (natOfDigits ns.data : Int)) →
      interStep today line subs f0 =
        .exit1 (some (ensure_csv f0))
          (" Invalid index. Use 1.." ++ natRepr (readStore f0).length)) :=
  ⟨fun t l su f h1 h2 => interStep_add_bad_date t l su f h1 h2,
   fun t l su f ym h1 h2 h3 => interStep_monthly_bad t l su f ym h1 h2 h3,
   fun t l su f ns h1 h2 h3 h4 => interStep_delete_bad t l su f ns h1 h2 h3 h4⟩

/-- C1 (witness): a concrete interactive `add` with the invalid date
`2025-13-01` only aborts the command; the loop continues with the store
unchanged. -/
theorem c1_interactive_amended_witness :
    interStep "2025-09-20" "add" ["2025-13-01", "x", "y", "1"] none = .cont none :=
  c1_interactive_amended.1 "2025-09-20" "add" ["2025-13-01", "x", "y", "1"] none
    (by decide) (by decide)

/-- C2 (counterexample): date validation is *not* the claimed exact
two-digit-month shape: `"2025-1-01"` (one-digit month) is accepted by the
code's `strptime`-based validator, while the claimed shape rejects it. -/
theorem c2_date_shape_counterexample :
    valid_date "2025-1-01" = true ∧ claimed_date_spec "2025-1-01" = false := by
  constructor <;> decide

/-- C2 (amended): for every input string, date validation succeeds if and
only if the string is a four-digit year, a hyphen, a one- or two-digit
month in 1..12, a hyphen, and a one- or two-digit day that forms a real
calendar date; every string of any other shape is rejected. -/
theorem c2_date_validation_amended (s : String) :
    valid_date s = amended_date_spec s :=
  valid_date_eq_shape s

/-- C3: deleting with an index outside `1..count` fails (`sys.exit(1)`),
the message reports the valid range `1..count`, and the persisted store is
byte-for-byte what it was before the call. -/
theorem c3_delete_out_of_range_safe (f : File) (k : Int)
    (h : k < 1 ∨ ((read_rows f).length : Int) < k) :
    (delete_expense (some f) k).exited = true ∧
    (delete_expense (some f) k).file = f ∧
    (delete_expense (some f) k).msg =
      " Invalid index. Use 1.." ++ natRepr (read_rows f).length := by
  rw [delete_expense_out_of_range (some f) k h]
  exact ⟨rfl, rfl, rfl⟩

/-- C3 (witness): `delete 99` on a two-record store exits, reports
`1..2`, and leaves the file unchanged. -/
theorem c3_delete_out_of_range_witness :
    (delete_expense (some [headerRow, ["2025-09-01", "a", "food", "1.00"],
        ["2025-09-02", "b", "rent", "2.00"]]) 99).exited = true ∧
    (delete_expense (some [headerRow, ["2025-09-01", "a", "food", "1.00"],
        ["2025-09-02", "b", "rent", "2.00"]]) 99).file =
      [headerRow, ["2025-09-01", "a", "food", "1.00"],
        ["2025-09-02", "b", "rent", "2.00"]] ∧
    (delete_expense (some [headerRow, ["2025-09-01", "a", "food", "1.00"],
        ["2025-09-02", "b", "rent", "2.00"]]) 99).msg = " Invalid index. Use 1..2" := by
  have h := c3_delete_out_of_range_safe
    [headerRow, ["2025-09-01", "a", "food", "1.00"], ["2025-09-02", "b", "rent", "2.00"]]
    99 (by decide)
  exact ⟨h.1, h.2.1, by rw [h.2.2]; decide⟩

/-- C4: deleting an in-range 1-based index `k` rewrites the store to the
header row followed by exactly the original records with the k-th removed,
the others in their original relative order. -/
theorem c4_delete_in_range_rewrites (f : File) (k : Nat)
    (h1 : 1 ≤ k) (h2 : k ≤ (read_rows f).length) :
    (delete_expense (some f) (k : Int)).exited = false ∧
    (delete_expense (some f) (k : Int)).file =
      headerRow :: (((read_rows f).take (k - 1) ++ (read_rows f).drop k).map recToRow) ∧
    read_rows ((delete_expense (some f) (k : Int)).file) =
      (read_rows f).take (k - 1) ++ (read_rows f).drop k := by
  rw [delete_expense_in_range (some f) k h1 h2]
  refine ⟨rfl, ?_, ?_⟩
  · show headerRow :: ((readStore (some f)).eraseIdx (k - 1)).map recToRow = _
    rw [eraseIdx_take_drop _ _ h1]
    rfl
  · show read_rows (headerRow :: ((readStore (some f)).eraseIdx (k - 1)).map recToRow) = _
    rw [read_rows_header_map, eraseIdx_take_drop _ _ h1]
    rfl

/-- C4 (witness): `delete 1` on a two-record store keeps the header and
exactly the second record. -/
theorem c4_delete_in_range_witness :
    read_rows ((delete_expense (some [headerRow, ["2025-09-01", "a", "food", "1.00"],
        ["2025-09-02", "b", "rent", "2.00"]]) ((1 : Nat) : Int)).file) =
      (read_rows [headerRow, ["2025-09-01", "a", "food", "1.00"],
        ["2025-09-02", "b", "rent", "2.00"]]).take 0 ++
      (read_rows [headerRow, ["2025-09-01", "a", "food", "1.00"],
        ["2025-09-02", "b", "rent", "2.00"]]).drop 1 :=
  (c4_delete_in_range_rewrites
    [headerRow, ["2025-09-01", "a", "food", "1.00"], ["2025-09-02", "b", "rent", "2.00"]]
    1 (by decide) (by decide)).2.2

/-- C5: for a valid YYYY-MM argument, the monthly summary selects exactly
the records whose stored date string starts with the year-month prefix
(purely lexical match), keeps them in file order, and totals their
amounts. -/
theorem c5_monthly_lexical_filter (f : File) (ym : String) (qs : List ℚ)
    (hv : valid_month ym = true)
    (ha : amountsQ ((read_rows f).filter (fun r => pyStartswith r.date ym)) = some qs) :
    monthly_summary ym (some f) =
      .ok f ((read_rows f).filter (fun r => pyStartswith r.date ym)) qs.sum := by
  simp only [monthly_summary, ensure_some, hv, ha]
  rfl

/-- C5 (witness): on a three-record store, `monthly 2025-09` keeps exactly
the two September records, in order, and totals their amounts. -/
theorem c5_monthly_lexical_filter_witness :
    monthly_summary "2025-09" (some [headerRow,
        ["2025-09-01", "Coffee", "food", "3.50"],
        ["2025-08-01", "Book", "education", "20.00"],
        ["2025-09-15", "Rent", "rent", "1200.00"]]) =
      .ok [headerRow, ["2025-09-01", "Coffee", "food", "3.50"],
          ["2025-08-01", "Book", "education", "20.00"],
          ["2025-09-15", "Rent", "rent", "1200.00"]]
        ((read_rows [headerRow, ["2025-09-01", "Coffee", "food", "3.50"],
            ["2025-08-01", "Book", "education", "20.00"],
            ["2025-09-15", "Rent", "rent", "1200.00"]]).filter
          (fun r => pyStartswith r.date "2025-09"))
        ([mkRat 350 100, mkRat 120000 100].sum) :=
  c5_monthly_lexical_filter
    [headerRow, ["2025-09-01", "Coffee", "food", "3.50"],
      ["2025-08-01", "Book", "education", "20.00"],
      ["2025-09-15", "Rent", "rent", "1200.00"]]
    "2025-09" [mkRat 350 100, mkRat 120000 100] (by decide) (by decide)

/-- C6 (counterexample): `float("inf")` succeeds, `round(inf, 2)` stays
`inf`, and `f"{inf:.2f}"` renders `"inf"`, so adding the valid input
`("2025-01-01", "x", "food", "inf")` persists an amount that is *not*
rendered with two fractional digits — the unamended round-trip claim is
false of the program. -/
theorem c6_inf_roundtrip_counterexample :
    valid_date "2025-01-01" = true ∧
    parse_amount "inf" = some PyFloat.inf ∧
    readStore (some (add_expense none "2025-01-01" "x" "food" PyFloat.inf)) =
      [⟨"2025-01-01", "x", "food", "inf"⟩] ∧
    isFixed2 "inf" = false := by
  exact ⟨by decide, by decide, by decide, by decide⟩

/-- C6 (amended): for every valid (date, description, category, amount)
whose amount parses to a *finite* float value, the record read back from
the backing file after Add has the date unchanged, the description
unchanged, the category lower-cased, and the amount rendered with exactly
two fractional digits.  (An amount whose `float()` result is non-finite —
the literals `inf`/`nan` or an overflowing literal such as `1e400` — is
instead persisted as the text `inf`/`-inf`/`nan`.) -/
theorem c6_add_roundtrip_amended (f0 : Option File) (hne : ensure_csv f0 ≠ [])
    (d de c s : String) (a : ℚ)
    (_hd : valid_date d = true) (_ha : parse_amount s = some (.finite a)) :
    readStore (some (add_expense f0 d de c (.finite a))) =
      readStore f0 ++ [⟨d, de, pyLower c, fmt2 a⟩] ∧
    isFixed2 (fmt2 a) = true :=
  ⟨readStore_add f0 hne d de c (.finite a), isFixed2_fmt2 a⟩

/-- C6 (witness): adding `("2025-09-01", "Coffee", "Food", 3.5)` to the
fresh store yields exactly one record with category `food` and amount
`3.50`. -/
theorem c6_add_roundtrip_amended_witness :
    readStore (some (add_expense none "2025-09-01" "Coffee" "Food"
        (.finite (mkRat 350 100)))) =
      readStore none ++ [⟨"2025-09-01", "Coffee", pyLower "Food", fmt2 (mkRat 350 100)⟩] ∧
    isFixed2 (fmt2 (mkRat 350 100)) = true :=
  c6_add_roundtrip_amended none (by decide) "2025-09-01" "Coffee" "Food" "3.5"
    (mkRat 350 100) (by decide) (by decide)

/-- C7 (counterexample): `add` with five further arguments (not exactly
four) is still dispatched and mutates the store; no usage banner is
printed. -/
theorem c7_add_argcount_counterexample :
    runMain ["add", "2025-01-01", "x", "food", "1", "extra"] none =
      .doneOut (some [headerRow, ["2025-01-01", "x", "food", "1.00"]]) := by
  decide

/-- C7 (amended): in single-shot mode the `add` command is dispatched when
at least four arguments follow the command name (extras are ignored); with
fewer than four, the usage banner is printed and the store is not
mutated. -/
theorem c7_add_argcount_amended (rest : List String) :
    (rest.length < 4 → ∀ f0, runMain ("add" :: rest) f0 = .usageOut f0) ∧
    (4 ≤ rest.length → ∀ f0, runMain ("add" :: rest) f0 ≠ .usageOut f0) := by
  constructor
  · intro hlen f0
    simp only [runMain]
    rw [if_neg (by rintro ⟨-, h⟩; omega),
      if_neg (by decide), if_neg (by decide),
      if_neg (by rintro ⟨h, -⟩; exact absurd h (by decide)),
      if_neg (by decide),
      if_neg (by rintro ⟨h, -⟩; exact absurd h (by decide))]
  · intro hlen f0
    simp only [runMain]
    rw [if_pos ⟨by trivial, hlen⟩]
    split
    · simp
    · split <;> simp

/-- C7 (witness): `add` with a single argument prints the usage banner and
leaves the (absent) store untouched. -/
theorem c7_add_argcount_witness :
    runMain ["add", "2025-01-01"] none = .usageOut none :=
  (c7_add_argcount_amended ["2025-01-01"]).1 (by decide) none

/-- C8 (counterexample): the claimed invariant is false of the program.
The single-shot command `add 2025-01-01 x food inf` is accepted
(`float("inf")` parses) and persists the amount text `inf`, which has no
decimal places — so a store violating the invariant is reachable from the
empty store by one Add. -/
theorem c8_inf_amount_counterexample :
    runMain ["add", "2025-01-01", "x", "food", "inf"] none =
      .doneOut (some [headerRow, ["2025-01-01", "x", "food", "inf"]]) ∧
    allFixed2 (applyOps none [.add "2025-01-01" "x" "food" PyFloat.inf]) = false := by
  exact ⟨by decide, by decide⟩

/-- C8 (amended): in every store reachable from a store whose amounts are
all serialized with two decimal places (in particular the empty store) by
Adds whose amounts are finite float values and arbitrary Deletes, every
persisted amount stays in fixed two-decimal form: Add writes
`f"{amount:.2f}"` and Delete rewrites the remaining amount strings
verbatim.  An Add of a non-finite amount instead persists
`inf`/`-inf`/`nan`. -/
theorem c8_amounts_two_decimals_amended (f0 : Option File) (ops : List Op)
    (h : allFixed2 f0 = true) (hf : ops.all Op.finiteAdd = true) :
    allFixed2 (applyOps f0 ops) = true := by
  revert h hf
  induction ops generalizing f0 with
  | nil =>
    intro h _
    exact h
  | cons op ops ih =>
    intro h hf
    rw [List.all_cons, Bool.and_eq_true] at hf
    exact ih (applyOp f0 op) (allFixed2_applyOp f0 op h hf.1) hf.2

/-- C8 (witness): starting from the absent store, an add of the finite
amount 3.5 followed by deletes (one out of range, one in range) leaves
every stored amount with exactly two decimals. -/
theorem c8_amounts_two_decimals_witness :
    allFixed2 (applyOps none
      [.add "2025-09-01" "Coffee" "Food" (.finite (mkRat 350 100)),
        .del 99, .del 1]) = true :=
  c8_amounts_two_decimals_amended none
    [.add "2025-09-01" "Coffee" "Food" (.finite (mkRat 350 100)), .del 99, .del 1]
    (by decide) (by decide)

/-- C9: the claim says no recognized single-shot command ever ends in an
uncaught exception; but `delete abc` reaches the unguarded
`int(args[1])`, which raises an uncaught `ValueError` (a stack trace, not
a one-line message). -/
theorem c9_delete_noninteger_uncaught :
    runMain ["delete", "abc"] none = .crashOut none := by
  decide

/-- C10: an explicit `list` limit of `0` is treated as absent (`if limit:`
is falsy on `0`), so `list 0` shows all records, identically to `list`
with no limit. -/
theorem c10_list_zero_limit (f0 : Option File) :
    list_expenses f0 (listLimitArg ["0"]) = list_expenses f0 none ∧
    (list_expenses f0 (listLimitArg ["0"])).shown = readStore f0 := by
  have h0 : listLimitArg ["0"] = some 0 := by decide
  rw [h0]
  exact ⟨rfl, rfl⟩
